import Mathlib

/-!
Verification of the Little Lemon booking API (restaurantapi app).

The embedding translates the reservation-creation path of the Django
application into pure Lean functions over an explicit store:

* `Booking`, `DB`        — the persisted rows (restaurant.models.Booking and
  the booking table).  `restaurant/models.py` is not part of the provided
  sources; the field list is taken from `BookingSerializer.Meta.fields`
  (id, user, first_name, reservation_date, reservation_slot) plus the
  creation timestamp the specification ascribes to the model.
* `validate_reservation_slot`, `serializerValidate` — the field-level and
  object-level validation of `BookingSerializer` (serializers.py).
* `get_or_create`, `saveBooking`, `perform_create` — the upsert of
  `BookingViewSet.perform_create` (views.py), with Django's
  `Booking.objects.get_or_create` and `Model.save` made explicit.
* `resolve` — the whole POST /bookings/ pipeline: serializer validation
  (which raises before any write) followed by `perform_create`.
* `has_object_permission`, `has_permission` — the two permission classes
  of permissions.py.
-/

namespace LittleLemon

/-- A user identity as consumed from the authentication collaborator:
an id and the `is_superuser` flag.  Equality of Django user objects is
modelled as equality of ids. -/
structure User where
  id : Nat
  is_superuser : Bool
deriving DecidableEq, Repr

/-- A persisted Booking row.  Fields `id, user, first_name,
reservation_date, reservation_slot` are the serializer's field list;
`created_at` is the immutable creation timestamp.
Modelled from the spec: `restaurant/models.py` is missing from the
provided sources, so the model's field list beyond what the serializer
names (the creation timestamp) follows spec section 3. -/
structure Booking where
  id : Nat
  userId : Nat
  first_name : String
  reservation_date : Nat
  reservation_slot : Int
  created_at : Nat
deriving DecidableEq, Repr

/-- The booking table: the list of persisted rows plus the next
auto-increment primary key. -/
structure DB where
  bookings : List Booking
  nextId : Nat
deriving DecidableEq, Repr

/-- The deserialized request body of POST /bookings/ as it reaches the
serializer: `first_name`, and the optional `reservation_date` /
`reservation_slot` fields (`attrs.get(...)` in `validate`).  The `user`
field of the serializer is a `ReadOnlyField`, so it never appears in the
incoming attributes. -/
structure BookingAttrs where
  first_name : String
  reservation_date : Option Nat
  reservation_slot : Option Int
deriving DecidableEq, Repr

/-- The serializer's validated data after `validate` has run: date and
slot are now mandatory. -/
structure ValidatedBooking where
  first_name : String
  reservation_date : Nat
  reservation_slot : Int
deriving DecidableEq, Repr

/-- The validation failures raised on the create path.
`slotTaken` carries the conflicting slot and date, mirroring the message
"Slot {reservation_slot} is already taken on {reservation_date}.". -/
inductive BookingError where
  | invalidSlot
  | missingDate
  | slotTaken (slot : Int) (date : Nat)
deriving DecidableEq, Repr

/-- `BookingSerializer.validate_reservation_slot`:
raise when `value < 10 or value > 20`, otherwise return the value. -/
def validate_reservation_slot (value : Int) : Except BookingError Int :=
  if value < 10 ∨ value > 20 then .error .invalidSlot else .ok value

/-- `Booking.objects.filter(reservation_date=d, reservation_slot=s).exists()`. -/
def slotTakenOn (db : DB) (d : Nat) (s : Int) : Bool :=
  db.bookings.any (fun b => b.reservation_date == d && b.reservation_slot == s)

/-- The lookup key of `perform_create`'s `get_or_create`: same user and
same reservation_date. -/
def bookingKey (uid d : Nat) (b : Booking) : Bool :=
  b.userId == uid && b.reservation_date == d

/-- `Booking.objects.get_or_create(user=.., reservation_date=..)`'s lookup:
the row for this user and date, if any. -/
def findUserDate (db : DB) (uid d : Nat) : Option Booking :=
  db.bookings.find? (bookingKey uid d)

/-- Number of persisted rows for a given (user, date) pair. -/
def countForUserDate (db : DB) (uid d : Nat) : Nat :=
  (db.bookings.filter (bookingKey uid d)).length

/-- Object-level `BookingSerializer.validate`: default the slot to 10,
require the date, reject when the (date, slot) pair is already booked by
anyone, and write the defaulted slot back into the attributes. -/
def validateObject (db : DB) (attrs : BookingAttrs) : Except BookingError ValidatedBooking :=
  let reservation_slot := attrs.reservation_slot.getD 10
  match attrs.reservation_date with
  | none => .error .missingDate
  | some reservation_date =>
    if slotTakenOn db reservation_date reservation_slot then
      .error (.slotTaken reservation_slot reservation_date)
    else
      .ok { first_name := attrs.first_name
            reservation_date := reservation_date
            reservation_slot := reservation_slot }

/-- The serializer's full validation: field-level validators first
(`validate_reservation_slot` runs only when the field was supplied,
since the model field has a default), then the object-level `validate`. -/
def serializerValidate (db : DB) (attrs : BookingAttrs) : Except BookingError ValidatedBooking :=
  match attrs.reservation_slot with
  | some v =>
    match validate_reservation_slot v with
    | .error e => .error e
    | .ok _ => validateObject db attrs
  | none => validateObject db attrs

/-- `Booking.objects.get_or_create(user=user, reservation_date=d,
defaults={first_name, reservation_slot})`: return the existing row for
(user, date) with `created = False`, or insert a fresh row from the
defaults with `created = True`.  (With more than one matching row Django
would raise `MultipleObjectsReturned`; here the first match is returned,
and the theorems that need it assume the one-row-per-(user, date)
invariant.) -/
def get_or_create (db : DB) (u : User) (d : Nat)
    (default_first_name : String) (default_slot : Int) (now : Nat) :
    Booking × Bool × DB :=
  match findUserDate db u.id d with
  | some b => (b, false, db)
  | none =>
    let nb : Booking :=
      { id := db.nextId
        userId := u.id
        first_name := default_first_name
        reservation_date := d
        reservation_slot := default_slot
        created_at := now }
    (nb, true, { bookings := db.bookings ++ [nb], nextId := db.nextId + 1 })

/-- `booking.save()` on an existing row: UPDATE by primary key. -/
def saveBooking (db : DB) (b' : Booking) : DB :=
  { db with bookings := db.bookings.map (fun c => if c.id == b'.id then b' else c) }

/-- `BookingViewSet.perform_create` run on validated data: get-or-create
on (user, date); when the row already existed, overwrite its
`first_name` and `reservation_slot` and save.  The function returns the
store together with the row attached as `serializer.instance`. -/
def perform_create (db : DB) (u : User) (vd : ValidatedBooking) (now : Nat) :
    DB × Booking :=
  match get_or_create db u vd.reservation_date vd.first_name vd.reservation_slot now with
  | (booking, true, db1) => (db1, booking)
  | (booking, false, db1) =>
    let b' := { booking with
                first_name := vd.first_name
                reservation_slot := vd.reservation_slot }
    (saveBooking db1 b', b')

/-- The POST /bookings/ pipeline: `serializer.is_valid(raise_exception=True)`
then `perform_create`.  A validation error leaves the store untouched. -/
def resolve (db : DB) (u : User) (attrs : BookingAttrs) (now : Nat) :
    DB × Except BookingError Booking :=
  match serializerValidate db attrs with
  | .error e => (db, .error e)
  | .ok vd =>
    let r := perform_create db u vd now
    (r.1, .ok r.2)

/-- `IsOwnerOrSuperUser.has_object_permission`: a superuser may act on
any booking, anyone else only on their own. -/
def has_object_permission (requester : User) (obj : Booking) : Bool :=
  if requester.is_superuser then true else obj.userId == requester.id

/-- A requester as seen by `IsSuperUserOrReadOnly`: possibly anonymous
(`is_authenticated = false`). -/
structure Requester where
  is_authenticated : Bool
  is_superuser : Bool
deriving DecidableEq, Repr

/-- The HTTP methods relevant to the permission check. -/
inductive HttpMethod where
  | GET | HEAD | OPTIONS | POST | PUT | PATCH | DELETE
deriving DecidableEq, Repr

/-- `rest_framework.permissions.SAFE_METHODS`. -/
def SAFE_METHODS : List HttpMethod := [.GET, .HEAD, .OPTIONS]

/-- `IsSuperUserOrReadOnly.has_permission`: safe methods for anyone,
writes only for an authenticated superuser. -/
def has_permission (requester : Requester) (m : HttpMethod) : Bool :=
  if SAFE_METHODS.contains m then true
  else requester.is_authenticated && requester.is_superuser

end LittleLemon

namespace LittleLemon

/-! Helper lemmas about the embedded operations. -/

theorem findUserDate_none_iff {db : DB} {uid d : Nat} :
    findUserDate db uid d = none ↔ ∀ b ∈ db.bookings, bookingKey uid d b = false := by
  unfold findUserDate
  rw [List.find?_eq_none]
  constructor
  · intro h b hb
    have := h b hb
    simpa using this
  · intro h b hb
    simp [h b hb]

theorem findUserDate_some_facts {db : DB} {uid d : Nat} {b : Booking}
    (h : findUserDate db uid d = some b) :
    b ∈ db.bookings ∧ b.userId = uid ∧ b.reservation_date = d := by
  unfold findUserDate at h
  refine ⟨List.mem_of_find?_eq_some h, ?_, ?_⟩
  · have hp := List.find?_some h
    unfold bookingKey at hp
    simp at hp
    exact hp.1
  · have hp := List.find?_some h
    unfold bookingKey at hp
    simp at hp
    exact hp.2

theorem countForUserDate_eq_zero_of_find_none {db : DB} {uid d : Nat}
    (h : findUserDate db uid d = none) : countForUserDate db uid d = 0 := by
  unfold countForUserDate
  have hall := findUserDate_none_iff.mp h
  have : db.bookings.filter (bookingKey uid d) = [] := by
    rw [List.filter_eq_nil_iff]
    intro b hb
    simp [hall b hb]
  simp [this]

theorem slotTakenOn_iff {db : DB} {d : Nat} {s : Int} :
    slotTakenOn db d s = true ↔
      ∃ b ∈ db.bookings, b.reservation_date = d ∧ b.reservation_slot = s := by
  unfold slotTakenOn
  rw [List.any_eq_true]
  constructor
  · rintro ⟨b, hb, hp⟩
    simp at hp
    exact ⟨b, hb, hp⟩
  · rintro ⟨b, hb, h1, h2⟩
    exact ⟨b, hb, by simp [h1, h2]⟩

theorem serializerValidate_ok_some_inv {db : DB} {n : String} {d : Nat} {s : Int}
    {vd : ValidatedBooking}
    (h : serializerValidate db ⟨n, some d, some s⟩ = .ok vd) :
    vd = ⟨n, d, s⟩ ∧ 10 ≤ s ∧ s ≤ 20 ∧ slotTakenOn db d s = false := by
  by_cases hr : s < 10 ∨ s > 20
  · simp [serializerValidate, validate_reservation_slot, hr] at h
  · by_cases htk : slotTakenOn db d s
    · simp [serializerValidate, validate_reservation_slot, validateObject, hr, htk] at h
    · simp [serializerValidate, validate_reservation_slot, validateObject, hr, htk] at h
      refine ⟨?_, by omega, by omega, by simpa using htk⟩
      rcases vd with ⟨vn, vdate, vslot⟩
      simp at h
      simp [h.1, h.2.1, h.2.2]

theorem serializerValidate_ok_none_inv {db : DB} {n : String} {d : Nat}
    {vd : ValidatedBooking}
    (h : serializerValidate db ⟨n, some d, none⟩ = .ok vd) :
    vd = ⟨n, d, 10⟩ ∧ slotTakenOn db d 10 = false := by
  by_cases htk : slotTakenOn db d 10
  · simp [serializerValidate, validateObject, htk] at h
  · simp [serializerValidate, validateObject, htk] at h
    refine ⟨?_, by simpa using htk⟩
    rcases vd with ⟨vn, vdate, vslot⟩
    simp at h
    simp [h.1, h.2.1, h.2.2]

theorem serializerValidate_missing_date (db : DB) (n : String) (os : Option Int)
    (hs : ∀ s, os = some s → 10 ≤ s ∧ s ≤ 20) :
    serializerValidate db ⟨n, none, os⟩ = .error .missingDate := by
  rcases os with _ | s
  · simp [serializerValidate, validateObject]
  · have hr := hs s rfl
    have hno : ¬(s < 10 ∨ s > 20) := by omega
    simp [serializerValidate, validate_reservation_slot, validateObject, hno]

theorem serializerValidate_ok_intro (db : DB) (n : String) (d : Nat) (os : Option Int)
    (hs : ∀ s, os = some s → 10 ≤ s ∧ s ≤ 20)
    (hfree : slotTakenOn db d (os.getD 10) = false) :
    serializerValidate db ⟨n, some d, os⟩ = .ok ⟨n, d, os.getD 10⟩ := by
  rcases os with _ | s
  · simp only [Option.getD] at hfree ⊢
    simp [serializerValidate, validateObject, hfree]
  · have hr := hs s rfl
    have hno : ¬(s < 10 ∨ s > 20) := by omega
    simp only [Option.getD] at hfree ⊢
    simp [serializerValidate, validate_reservation_slot, validateObject, hno, hfree]

theorem serializerValidate_slotTaken (db : DB) (n : String) (d : Nat) (os : Option Int)
    (hs : ∀ s, os = some s → 10 ≤ s ∧ s ≤ 20)
    (htaken : slotTakenOn db d (os.getD 10) = true) :
    serializerValidate db ⟨n, some d, os⟩ = .error (.slotTaken (os.getD 10) d) := by
  rcases os with _ | s
  · simp only [Option.getD] at htaken ⊢
    simp [serializerValidate, validateObject, htaken]
  · have hr := hs s rfl
    have hno : ¬(s < 10 ∨ s > 20) := by omega
    simp only [Option.getD] at htaken ⊢
    simp [serializerValidate, validate_reservation_slot, validateObject, hno, htaken]

theorem resolve_of_validate_error {db : DB} {u : User} {attrs : BookingAttrs}
    {now : Nat} {e : BookingError}
    (h : serializerValidate db attrs = .error e) :
    resolve db u attrs now = (db, .error e) := by
  unfold resolve
  rw [h]

theorem resolve_of_validate_ok {db : DB} {u : User} {attrs : BookingAttrs}
    {now : Nat} {vd : ValidatedBooking}
    (h : serializerValidate db attrs = .ok vd) :
    resolve db u attrs now =
      ((perform_create db u vd now).1, .ok (perform_create db u vd now).2) := by
  unfold resolve
  rw [h]

theorem perform_create_of_find_none {db : DB} {u : User} {vd : ValidatedBooking} {now : Nat}
    (h : findUserDate db u.id vd.reservation_date = none) :
    perform_create db u vd now =
      ({ bookings := db.bookings ++
            [{ id := db.nextId
               userId := u.id
               first_name := vd.first_name
               reservation_date := vd.reservation_date
               reservation_slot := vd.reservation_slot
               created_at := now }]
         nextId := db.nextId + 1 },
       { id := db.nextId
         userId := u.id
         first_name := vd.first_name
         reservation_date := vd.reservation_date
         reservation_slot := vd.reservation_slot
         created_at := now }) := by
  unfold perform_create get_or_create
  rw [h]

theorem perform_create_of_find_some {db : DB} {u : User} {vd : ValidatedBooking} {now : Nat}
    {b : Booking} (h : findUserDate db u.id vd.reservation_date = some b) :
    perform_create db u vd now =
      (saveBooking db { b with first_name := vd.first_name
                               reservation_slot := vd.reservation_slot },
       { b with first_name := vd.first_name
                reservation_slot := vd.reservation_slot }) := by
  unfold perform_create get_or_create
  rw [h]

theorem mem_saveBooking_self {db : DB} {b b' : Booking}
    (hb : b ∈ db.bookings) (hid : b.id = b'.id) :
    b' ∈ (saveBooking db b').bookings := by
  unfold saveBooking
  have h : (if b.id == b'.id then b' else b) ∈
      db.bookings.map (fun c => if c.id == b'.id then b' else c) :=
    List.mem_map_of_mem _ hb
  rwa [if_pos (by simpa using hid)] at h

theorem mem_saveBooking_frame {db : DB} {b' c : Booking}
    (hc : c ∈ db.bookings) (hne : c.id ≠ b'.id) :
    c ∈ (saveBooking db b').bookings := by
  unfold saveBooking
  have h : (if c.id == b'.id then b' else c) ∈
      db.bookings.map (fun cc => if cc.id == b'.id then b' else cc) :=
    List.mem_map_of_mem _ hc
  rwa [if_neg (by simpa using hne)] at h

theorem mem_saveBooking_inv {db : DB} {b' x : Booking}
    (hx : x ∈ (saveBooking db b').bookings) :
    x = b' ∨ (x ∈ db.bookings ∧ x.id ≠ b'.id) := by
  unfold saveBooking at hx
  simp only [List.mem_map] at hx
  obtain ⟨c, hc, hcx⟩ := hx
  by_cases h : c.id = b'.id
  · left
    rw [← hcx]
    simp [h]
  · right
    rw [← hcx, if_neg (by simpa using h)]
    exact ⟨hc, h⟩

/-- Replacing, by id, a row `b` of the table with a row `b'` that
satisfies the same key predicate does not change how many rows satisfy
it, provided `b` is the only row bearing that id. -/
theorem length_filter_map_upd (l : List Booking) (b b' : Booking) (p : Booking → Bool)
    (hid : ∀ c ∈ l, c.id = b'.id → c = b) (hp : p b = p b') :
    ((l.map (fun c => if c.id == b'.id then b' else c)).filter p).length =
      (l.filter p).length := by
  induction l with
  | nil => rfl
  | cons c t ih =>
    have ht : ∀ x ∈ t, x.id = b'.id → x = b := fun x hx => hid x (List.mem_cons_of_mem _ hx)
    have ihs := ih ht
    by_cases h : c.id = b'.id
    · have hcb : c = b := hid c (List.mem_cons_self _ _) h
      have hpc : p c = p b' := by rw [hcb, hp]
      by_cases hq : p b' = true
      · simp [List.filter_cons, h, hpc, hq]
        simpa using ihs
      · simp [List.filter_cons, h, hpc, hq]
        simpa using ihs
    · by_cases hq : p c = true
      · simp [List.filter_cons, h, hq]
        simpa using ihs
      · simp [List.filter_cons, h, hq]
        simpa using ihs

theorem filter_length_one_unique {l : List Booking} {p : Booking → Bool} {b c : Booking}
    (h1 : (l.filter p).length = 1)
    (hb : b ∈ l) (hpb : p b = true) (hc : c ∈ l) (hpc : p c = true) : c = b := by
  obtain ⟨a, ha⟩ := List.length_eq_one.mp h1
  have hb' : b ∈ l.filter p := List.mem_filter.mpr ⟨hb, hpb⟩
  have hc' : c ∈ l.filter p := List.mem_filter.mpr ⟨hc, hpc⟩
  rw [ha] at hb' hc'
  simp at hb' hc'
  rw [hb', hc']

theorem exists_mem_of_filter_length_pos {l : List Booking} {p : Booking → Bool}
    (h : 0 < (l.filter p).length) : ∃ b ∈ l, p b = true := by
  rcases hf : l.filter p with _ | ⟨a, t⟩
  · rw [hf] at h
    simp at h
  · have : a ∈ l.filter p := by rw [hf]; exact List.mem_cons_self _ _
    have := List.mem_filter.mp this
    exact ⟨a, this.1, this.2⟩

theorem serializerValidate_ok_inv2 {db : DB} {n : String} {d : Nat} {os : Option Int}
    {vd : ValidatedBooking}
    (h : serializerValidate db ⟨n, some d, os⟩ = .ok vd) :
    vd = ⟨n, d, os.getD 10⟩ ∧ slotTakenOn db d (os.getD 10) = false ∧
    ∀ s, os = some s → 10 ≤ s ∧ s ≤ 20 := by
  rcases os with _ | s
  · obtain ⟨h1, h2⟩ := serializerValidate_ok_none_inv h
    exact ⟨h1, h2, by simp⟩
  · obtain ⟨h1, h2, h3, h4⟩ := serializerValidate_ok_some_inv h
    refine ⟨h1, h4, ?_⟩
    intro s' hs'
    cases hs'
    omega

/-- Well-formedness of the store: every row's primary key is below the
auto-increment counter, and primary keys are unique. -/
def WF (db : DB) : Prop :=
  (∀ b ∈ db.bookings, b.id < db.nextId) ∧
  ∀ b1 ∈ db.bookings, ∀ b2 ∈ db.bookings, b1.id = b2.id → b1 = b2

theorem WF_append_new {db : DB} (hWF : WF db) {nb : Booking}
    (hid : nb.id = db.nextId) :
    WF { bookings := db.bookings ++ [nb], nextId := db.nextId + 1 } := by
  obtain ⟨hlt, huniq⟩ := hWF
  constructor
  · intro x hx
    show x.id < db.nextId + 1
    have hx' : x ∈ db.bookings ++ [nb] := hx
    rcases List.mem_append.mp hx' with h | h
    · have := hlt x h
      omega
    · have hxe : x = nb := by simpa using h
      rw [hxe, hid]
      omega
  · intro x1 hx1 x2 hx2 heq
    have hx1' : x1 ∈ db.bookings ++ [nb] := hx1
    have hx2' : x2 ∈ db.bookings ++ [nb] := hx2
    rcases List.mem_append.mp hx1' with h1 | h1 <;>
      rcases List.mem_append.mp hx2' with h2 | h2
    · exact huniq x1 h1 x2 h2 heq
    · have e2 : x2 = nb := by simpa using h2
      have hl := hlt x1 h1
      rw [e2, hid] at heq
      exact absurd heq (by omega)
    · have e1 : x1 = nb := by simpa using h1
      have hl := hlt x2 h2
      rw [e1, hid] at heq
      exact absurd heq (by omega)
    · have e1 : x1 = nb := by simpa using h1
      have e2 : x2 = nb := by simpa using h2
      rw [e1, e2]

theorem WF_saveBooking {db : DB} (hWF : WF db) {b b' : Booking}
    (hb : b ∈ db.bookings) (hid : b'.id = b.id) :
    WF (saveBooking db b') := by
  obtain ⟨hlt, huniq⟩ := hWF
  constructor
  · intro x hx
    show x.id < db.nextId
    rcases mem_saveBooking_inv hx with h | ⟨h, _⟩
    · rw [h, hid]
      exact hlt b hb
    · exact hlt x h
  · intro x1 hx1 x2 hx2 heq
    rcases mem_saveBooking_inv hx1 with h1 | ⟨h1, hne1⟩ <;>
      rcases mem_saveBooking_inv hx2 with h2 | ⟨h2, hne2⟩
    · rw [h1, h2]
    · have hb2 : b'.id = x2.id := by
        rw [← h1]
        exact heq
      exact absurd hb2.symm hne2
    · have hb1 : x1.id = b'.id := by
        rw [← h2]
        exact heq
      exact absurd hb1 hne1
    · exact huniq x1 h1 x2 h2 heq

theorem findUserDate_isSome_of_count_pos {db : DB} {uid d : Nat}
    (h : 0 < countForUserDate db uid d) : ∃ b, findUserDate db uid d = some b := by
  obtain ⟨b, hb, hpb⟩ := exists_mem_of_filter_length_pos h
  cases hf : findUserDate db uid d with
  | some b' => exact ⟨b', rfl⟩
  | none => exact absurd (findUserDate_none_iff.mp hf b hb) (by simp [hpb])

theorem findUserDate_eq_none_of_count_zero {db : DB} {uid d : Nat}
    (h : countForUserDate db uid d = 0) : findUserDate db uid d = none := by
  rw [findUserDate_none_iff]
  intro b hb
  by_contra hc
  have hmemf : b ∈ db.bookings.filter (bookingKey uid d) :=
    List.mem_filter.mpr ⟨hb, by simpa using hc⟩
  unfold countForUserDate at h
  rw [List.length_eq_zero] at h
  rw [h] at hmemf
  simp at hmemf

theorem serializerValidate_none_date_not_ok {db : DB} {n : String} {os : Option Int}
    {vd : ValidatedBooking}
    (h : serializerValidate db ⟨n, none, os⟩ = .ok vd) : False := by
  rcases os with _ | s
  · simp [serializerValidate, validateObject] at h
  · by_cases hr : s < 10 ∨ s > 20
    · simp [serializerValidate, validate_reservation_slot, hr] at h
    · simp [serializerValidate, validate_reservation_slot, validateObject, hr] at h

/-- Inverting a successful `resolve` call (with the date supplied):
the requested slot (or its default 10) was free on that date before the
call, and the returned row is persisted and carries the requester's id
and the request's fields. -/
theorem resolve_ok_facts {db db1 : DB} {u : User} {n : String} {d : Nat}
    {os : Option Int} {now : Nat} {b1 : Booking}
    (h : resolve db u ⟨n, some d, os⟩ now = (db1, .ok b1)) :
    slotTakenOn db d (os.getD 10) = false ∧
    b1 ∈ db1.bookings ∧ b1.userId = u.id ∧ b1.first_name = n ∧
    b1.reservation_date = d ∧ b1.reservation_slot = os.getD 10 ∧
    (∀ s, os = some s → 10 ≤ s ∧ s ≤ 20) := by
  cases hv : serializerValidate db ⟨n, some d, os⟩ with
  | error e =>
    rw [resolve_of_validate_error hv] at h
    simp at h
  | ok vd =>
    obtain ⟨hvd, hfree, hrange⟩ := serializerValidate_ok_inv2 hv
    subst hvd
    rw [resolve_of_validate_ok hv] at h
    cases hf : findUserDate db u.id d with
    | none =>
      rw [perform_create_of_find_none hf] at h
      injection h with hdb hok
      injection hok with hb
      subst hdb
      subst hb
      refine ⟨hfree, ?_, rfl, rfl, rfl, rfl, hrange⟩
      exact List.mem_append.mpr (Or.inr (List.mem_singleton.mpr rfl))
    | some b =>
      obtain ⟨hbmem, hbuid, hbdate⟩ := findUserDate_some_facts hf
      rw [perform_create_of_find_some hf] at h
      injection h with hdb hok
      injection hok with hb
      subst hdb
      subst hb
      refine ⟨hfree, ?_, hbuid, rfl, hbdate, rfl, hrange⟩
      exact mem_saveBooking_self hbmem rfl

/-- A successful `resolve` on a well-formed store with at most one row
for (user, date) leaves exactly one row for (user, date) and preserves
well-formedness. -/
theorem resolve_ok_count {db db1 : DB} {u : User} {n : String} {d : Nat}
    {os : Option Int} {now : Nat} {b1 : Booking}
    (hWF : WF db) (hcount : countForUserDate db u.id d ≤ 1)
    (h : resolve db u ⟨n, some d, os⟩ now = (db1, .ok b1)) :
    countForUserDate db1 u.id d = 1 ∧ WF db1 := by
  cases hv : serializerValidate db ⟨n, some d, os⟩ with
  | error e =>
    rw [resolve_of_validate_error hv] at h
    simp at h
  | ok vd =>
    obtain ⟨hvd, hfree, hrange⟩ := serializerValidate_ok_inv2 hv
    subst hvd
    rw [resolve_of_validate_ok hv] at h
    cases hf : findUserDate db u.id d with
    | none =>
      rw [perform_create_of_find_none hf] at h
      injection h with hdb hok
      subst hdb
      constructor
      · have h0 : countForUserDate db u.id d = 0 := countForUserDate_eq_zero_of_find_none hf
        unfold countForUserDate at h0 ⊢
        rw [List.filter_append, List.length_append, h0]
        simp [bookingKey]
      · exact WF_append_new hWF rfl
    | some b =>
      obtain ⟨hbmem, hbuid, hbdate⟩ := findUserDate_some_facts hf
      rw [perform_create_of_find_some hf] at h
      injection h with hdb hok
      subst hdb
      have hone : countForUserDate db u.id d = 1 := by
        have hkey : bookingKey u.id d b = true := by
          simp [bookingKey, hbuid, hbdate]
        have hmemf : b ∈ db.bookings.filter (bookingKey u.id d) :=
          List.mem_filter.mpr ⟨hbmem, hkey⟩
        have hpos : 0 < countForUserDate db u.id d := by
          unfold countForUserDate
          exact List.length_pos.mpr (List.ne_nil_of_mem hmemf)
        omega
      constructor
      · unfold countForUserDate saveBooking
        rw [length_filter_map_upd db.bookings b _ _ ?hid ?hp]
        · exact hone
        case hid =>
          intro c hc hcid
          exact hWF.2 c hc b hbmem hcid
        case hp => rfl
      · exact WF_saveBooking hWF hbmem rfl

/-- C4: for every integer s, `validate_reservation_slot s` succeeds iff
10 ≤ s ≤ 20; on success it returns s unchanged, and on failure it fails
with `invalidSlot`. -/
theorem slot_validator_spec (s : Int) :
    (validate_reservation_slot s = .ok s ↔ (10 ≤ s ∧ s ≤ 20)) ∧
    (validate_reservation_slot s = .ok s ∨
      validate_reservation_slot s = .error .invalidSlot) := by
  unfold validate_reservation_slot
  by_cases h : s < 10 ∨ s > 20
  · rw [if_pos h]
    refine ⟨⟨fun hc => absurd hc (by simp), fun hr => by omega⟩, Or.inr rfl⟩
  · rw [if_neg h]
    exact ⟨⟨fun _ => by omega, fun _ => rfl⟩, Or.inl rfl⟩

/-- C7: `has_object_permission` grants access exactly when the requester
is a superuser or owns the booking; in particular the owner and any
superuser pass, and any other non-superuser is refused. -/
theorem owner_or_superuser_spec (r : User) (b : Booking) :
    has_object_permission r b = true ↔ (r.is_superuser = true ∨ b.userId = r.id) := by
  unfold has_object_permission
  by_cases h : r.is_superuser = true
  · rw [if_pos h]
    exact ⟨fun _ => Or.inl h, fun _ => rfl⟩
  · rw [if_neg h]
    constructor
    · intro hb
      exact Or.inr (by simpa using hb)
    · intro hb
      rcases hb with hb | hb
      · exact absurd hb h
      · simpa using hb

/-- C8: `has_permission` grants access exactly when the method is safe
(read-only), or the requester is an authenticated superuser; hence any
requester, including an anonymous one, may read, and no non-superuser
may write. -/
theorem superuser_or_read_only_spec (r : Requester) (m : HttpMethod) :
    has_permission r m = true ↔
      (m ∈ SAFE_METHODS ∨ (r.is_authenticated = true ∧ r.is_superuser = true)) := by
  rcases r with ⟨auth, sup⟩
  unfold has_permission SAFE_METHODS
  cases auth <;> cases sup <;> cases m <;> simp

/-- C3: if `resolve` succeeds for (date, slot) creating or updating a
row owned by u1, a subsequent `resolve` by a different user u2 for the
same date and slot fails with `slotTaken`, echoing the conflicting slot
and date, and the store is unchanged. -/
theorem slot_conflict_rejection (db db1 : DB) (u1 u2 : User) (d : Nat) (s : Int)
    (n1 n2 : String) (now now' : Nat) (b1 : Booking)
    (_hne : u2 ≠ u1)
    (h1 : resolve db u1 ⟨n1, some d, some s⟩ now = (db1, .ok b1)) :
    resolve db1 u2 ⟨n2, some d, some s⟩ now' = (db1, .error (.slotTaken s d)) := by
  obtain ⟨hfree, hmem, huid, hname, hdate, hslot, hrange⟩ := resolve_ok_facts h1
  have hr := hrange s rfl
  have htaken : slotTakenOn db1 d s = true :=
    slotTakenOn_iff.mpr ⟨b1, hmem, hdate, hslot⟩
  exact resolve_of_validate_error
    (serializerValidate_slotTaken db1 n2 d (some s)
      (fun v hv => by cases hv; exact hr) htaken)

/-- Witness for C3: user 2 requests the slot 12 that user 1 already
holds on date 5 and is rejected with the echoed slot and date. -/
theorem slot_conflict_rejection_witness :
    resolve ⟨[⟨0, 1, "Ana", 5, 12, 100⟩], 1⟩ ⟨2, false⟩ ⟨"Bob", some 5, some 12⟩ 101 =
      (⟨[⟨0, 1, "Ana", 5, 12, 100⟩], 1⟩, .error (.slotTaken 12 5)) :=
  slot_conflict_rejection ⟨[], 0⟩ ⟨[⟨0, 1, "Ana", 5, 12, 100⟩], 1⟩
    ⟨1, false⟩ ⟨2, false⟩ 5 12 "Ana" "Bob" 100 101 ⟨0, 1, "Ana", 5, 12, 100⟩
    (by decide) rfl

/-- C5: a request failing validation — slot outside [10, 20], or the
date absent — is rejected as `invalidSlot` / `missingDate` with the
store returned unchanged; more generally every validation error leaves
the store exactly as it was. -/
theorem validation_error_atomicity (db : DB) (u : User) (attrs : BookingAttrs)
    (now : Nat) (s : Int) :
    (attrs.reservation_slot = some s → s < 10 ∨ 20 < s →
      resolve db u attrs now = (db, .error .invalidSlot)) ∧
    (attrs.reservation_date = none →
      (∀ v, attrs.reservation_slot = some v → 10 ≤ v ∧ v ≤ 20) →
      resolve db u attrs now = (db, .error .missingDate)) ∧
    (∀ db' e, resolve db u attrs now = (db', .error e) → db' = db) := by
  refine ⟨?_, ?_, ?_⟩
  · intro hs hout
    rcases attrs with ⟨n, od, os⟩
    simp only at hs
    subst hs
    exact resolve_of_validate_error
      (by simp [serializerValidate, validate_reservation_slot, hout])
  · intro hd hs
    rcases attrs with ⟨n, od, os⟩
    simp only at hd
    subst hd
    exact resolve_of_validate_error (serializerValidate_missing_date db n os hs)
  · intro db' e h
    cases hv : serializerValidate db attrs with
    | error e' =>
      rw [resolve_of_validate_error hv] at h
      injection h with h1 h2
      exact h1.symm
    | ok vd =>
      rw [resolve_of_validate_ok hv] at h
      injection h with h1 h2
      simp at h2

/-- Witness for C5: slot 9 is rejected as invalid and a dateless request
is rejected as missing the date; both leave the store untouched. -/
theorem validation_error_atomicity_witness :
    resolve ⟨[], 0⟩ ⟨1, false⟩ ⟨"Ana", some 5, some 9⟩ 100 =
      (⟨[], 0⟩, .error .invalidSlot) ∧
    resolve ⟨[], 0⟩ ⟨1, false⟩ ⟨"Ana", none, some 12⟩ 100 =
      (⟨[], 0⟩, .error .missingDate) :=
  ⟨(validation_error_atomicity ⟨[], 0⟩ ⟨1, false⟩ ⟨"Ana", some 5, some 9⟩ 100 9).1
      rfl (by omega),
   (validation_error_atomicity ⟨[], 0⟩ ⟨1, false⟩ ⟨"Ana", none, some 12⟩ 100 12).2.1
      rfl (fun v hv => by cases hv; omega)⟩

/-- C6 counterexample: the full observable result of `resolve` — the
new store and the row attached as `serializer.instance` — is identical
for a call that created the row (empty store) and a call that updated
an existing row, although `get_or_create` computed opposite `created`
flags internally.  No created-vs-updated indicator is part of the
resolver's result, so the HTTP layer cannot distinguish the two. -/
theorem resolver_flag_cex :
    resolve ⟨[], 0⟩ ⟨1, false⟩ ⟨"Ana", some 5, some 12⟩ 100 =
      resolve ⟨[⟨0, 1, "Old", 5, 11, 100⟩], 1⟩ ⟨1, false⟩ ⟨"Ana", some 5, some 12⟩ 100 ∧
    (⟨[], 0⟩ : DB) ≠ ⟨[⟨0, 1, "Old", 5, 11, 100⟩], 1⟩ ∧
    (get_or_create ⟨[], 0⟩ ⟨1, false⟩ 5 "Ana" 12 100).2.1 = true ∧
    (get_or_create ⟨[⟨0, 1, "Old", 5, 11, 100⟩], 1⟩ ⟨1, false⟩ 5 "Ana" 12 100).2.1 = false :=
  ⟨rfl, by decide, rfl, rfl⟩

/-- C6 (amended): every successful call returns the resulting Booking —
the row it persisted, attached as `serializer.instance` — but no
created-vs-updated flag accompanies it. -/
theorem resolver_returns_persisted_booking (db db' : DB) (u : User)
    (attrs : BookingAttrs) (now : Nat) (b : Booking)
    (h : resolve db u attrs now = (db', .ok b)) : b ∈ db'.bookings := by
  rcases attrs with ⟨n, od, os⟩
  rcases od with _ | d
  · cases hv : serializerValidate db ⟨n, none, os⟩ with
    | error e =>
      rw [resolve_of_validate_error hv] at h
      injection h with h1 h2
      simp at h2
    | ok vd => exact absurd hv (fun hv => serializerValidate_none_date_not_ok hv)
  · exact (resolve_ok_facts h).2.1

/-- Witness for C6 (amended): the booking returned by a concrete
successful call is persisted in the returned store. -/
theorem resolver_returns_persisted_booking_witness :
    (⟨0, 1, "Ana", 5, 12, 100⟩ : Booking) ∈
      (DB.mk [⟨0, 1, "Ana", 5, 12, 100⟩] 1).bookings :=
  resolver_returns_persisted_booking ⟨[], 0⟩ ⟨[⟨0, 1, "Ana", 5, 12, 100⟩], 1⟩
    ⟨1, false⟩ ⟨"Ana", some 5, some 12⟩ 100 ⟨0, 1, "Ana", 5, 12, 100⟩ rfl

/-- C9: when `perform_create` updates an existing row, only
`first_name` and `reservation_slot` change: the row keeps its id,
owning user, reservation_date and creation timestamp, the counter is
untouched, and every other row (by id) survives unchanged.  The `user`
reference is never writable through the API: the serializer exposes it
read-only, so `BookingAttrs` carries no user field at all. -/
theorem upsert_frame_property (db : DB) (u : User) (vd : ValidatedBooking)
    (now : Nat) (b : Booking)
    (hf : findUserDate db u.id vd.reservation_date = some b) :
    ∃ b', perform_create db u vd now =
        ({ bookings := db.bookings.map (fun c => if c.id == b'.id then b' else c)
           nextId := db.nextId }, b') ∧
      b'.id = b.id ∧ b'.userId = b.userId ∧
      b'.reservation_date = b.reservation_date ∧ b'.created_at = b.created_at ∧
      b'.first_name = vd.first_name ∧ b'.reservation_slot = vd.reservation_slot ∧
      ∀ c ∈ db.bookings, c.id ≠ b.id → c ∈ (perform_create db u vd now).1.bookings := by
  refine ⟨{ b with first_name := vd.first_name, reservation_slot := vd.reservation_slot },
    ?_, rfl, rfl, rfl, rfl, rfl, rfl, ?_⟩
  · rw [perform_create_of_find_some hf]
    rfl
  · intro c hc hcne
    rw [perform_create_of_find_some hf]
    exact mem_saveBooking_frame hc hcne

/-- Witness for C9: updating user 1's booking on date 5 from slot 11 to
slot 13 keeps id, owner, date and timestamp, and leaves user 2's row
alone. -/
theorem upsert_frame_property_witness :
    ∃ b', perform_create ⟨[⟨0, 1, "Old", 5, 11, 50⟩, ⟨1, 2, "Bob", 5, 12, 60⟩], 2⟩
        ⟨1, false⟩ ⟨"Ana", 5, 13⟩ 100 =
        ({ bookings := [⟨0, 1, "Old", 5, 11, 50⟩,
             ⟨1, 2, "Bob", 5, 12, 60⟩].map (fun c => if c.id == b'.id then b' else c)
           nextId := 2 }, b') ∧
      b'.id = 0 ∧ b'.userId = 1 ∧ b'.reservation_date = 5 ∧ b'.created_at = 50 ∧
      b'.first_name = "Ana" ∧ b'.reservation_slot = 13 ∧
      ∀ c ∈ [(⟨0, 1, "Old", 5, 11, 50⟩ : Booking), ⟨1, 2, "Bob", 5, 12, 60⟩],
        c.id ≠ 0 →
        c ∈ (perform_create ⟨[⟨0, 1, "Old", 5, 11, 50⟩, ⟨1, 2, "Bob", 5, 12, 60⟩], 2⟩
              ⟨1, false⟩ ⟨"Ana", 5, 13⟩ 100).1.bookings :=
  upsert_frame_property ⟨[⟨0, 1, "Old", 5, 11, 50⟩, ⟨1, 2, "Bob", 5, 12, 60⟩], 2⟩
    ⟨1, false⟩ ⟨"Ana", 5, 13⟩ 100 ⟨0, 1, "Old", 5, 11, 50⟩ rfl

/-- C10: a request that omits `reservation_slot` is treated as slot 10:
the conflict check is made against (date, 10), and on success the
persisted row has `reservation_slot = 10`. -/
theorem default_slot_when_omitted (db : DB) (u : User) (d : Nat) (n : String)
    (now : Nat) :
    (slotTakenOn db d 10 = true →
      resolve db u ⟨n, some d, none⟩ now = (db, .error (.slotTaken 10 d))) ∧
    (slotTakenOn db d 10 = false →
      ∃ db' b, resolve db u ⟨n, some d, none⟩ now = (db', .ok b) ∧
        b.reservation_slot = 10 ∧ b ∈ db'.bookings) := by
  constructor
  · intro ht
    exact resolve_of_validate_error
      (serializerValidate_slotTaken db n d none (by simp) ht)
  · intro hfree
    have hv := serializerValidate_ok_intro db n d none (by simp) hfree
    refine ⟨(perform_create db u ⟨n, d, 10⟩ now).1,
      (perform_create db u ⟨n, d, 10⟩ now).2, resolve_of_validate_ok hv, ?_, ?_⟩
    · cases hfind : findUserDate db u.id d with
      | none => rw [perform_create_of_find_none hfind]
      | some b => rw [perform_create_of_find_some hfind]
    · cases hfind : findUserDate db u.id d with
      | none =>
        rw [perform_create_of_find_none hfind]
        exact List.mem_append.mpr (Or.inr (List.mem_singleton.mpr rfl))
      | some b =>
        obtain ⟨hbmem, hbuid, hbdate⟩ := findUserDate_some_facts hfind
        rw [perform_create_of_find_some hfind]
        exact mem_saveBooking_self hbmem rfl

/-- Witness for C10: with slot 10 on date 5 already taken by user 2, a
slotless request is rejected against (5, 10); on an empty store a
slotless request persists slot 10. -/
theorem default_slot_when_omitted_witness :
    resolve ⟨[⟨0, 2, "Bob", 5, 10, 50⟩], 1⟩ ⟨1, false⟩ ⟨"Ana", some 5, none⟩ 100 =
      (⟨[⟨0, 2, "Bob", 5, 10, 50⟩], 1⟩, .error (.slotTaken 10 5)) ∧
    (∃ db' b, resolve ⟨[], 0⟩ ⟨1, false⟩ ⟨"Ana", some 5, none⟩ 100 = (db', .ok b) ∧
      b.reservation_slot = 10 ∧ b ∈ db'.bookings) :=
  ⟨(default_slot_when_omitted ⟨[⟨0, 2, "Bob", 5, 10, 50⟩], 1⟩ ⟨1, false⟩ 5 "Ana" 100).1 rfl,
   (default_slot_when_omitted ⟨[], 0⟩ ⟨1, false⟩ 5 "Ana" 100).2 rfl⟩

/-- C2 counterexample: user 1 has no booking on date 5 and requests the
in-range slot 12, but user 2 already holds (date 5, slot 12); contrary
to the claim, the request does not succeed — the cross-user conflict is
checked and rejected, and no row is created. -/
theorem cross_user_conflict_cex :
    countForUserDate ⟨[⟨0, 2, "Bob", 5, 12, 50⟩], 1⟩ 1 5 = 0 ∧
    resolve ⟨[⟨0, 2, "Bob", 5, 12, 50⟩], 1⟩ ⟨1, false⟩ ⟨"Ana", some 5, some 12⟩ 100 =
      (⟨[⟨0, 2, "Bob", 5, 12, 50⟩], 1⟩, .error (.slotTaken 12 5)) :=
  ⟨rfl, rfl⟩

/-- C2 (amended): the upsert path does check cross-user slot conflicts.
For a user with no booking on date d and an in-range slot s, the request
fails with `slotTaken` whenever any user holds (d, s), and only when no
row at all has (d, s) does it succeed, inserting a fresh row owned by
the requester. -/
theorem cross_user_conflict_checked (db : DB) (u : User) (d : Nat) (s : Int)
    (n : String) (now : Nat)
    (hnone : countForUserDate db u.id d = 0)
    (hlo : 10 ≤ s) (hhi : s ≤ 20) :
    (slotTakenOn db d s = true →
      resolve db u ⟨n, some d, some s⟩ now = (db, .error (.slotTaken s d))) ∧
    (slotTakenOn db d s = false →
      resolve db u ⟨n, some d, some s⟩ now =
        ({ bookings := db.bookings ++ [⟨db.nextId, u.id, n, d, s, now⟩]
           nextId := db.nextId + 1 },
         .ok ⟨db.nextId, u.id, n, d, s, now⟩)) := by
  constructor
  · intro ht
    exact resolve_of_validate_error
      (serializerValidate_slotTaken db n d (some s)
        (fun v hv => by cases hv; exact ⟨hlo, hhi⟩) ht)
  · intro hfree
    have hv := serializerValidate_ok_intro db n d (some s)
      (fun v hv => by cases hv; exact ⟨hlo, hhi⟩) hfree
    rw [resolve_of_validate_ok hv]
    rw [perform_create_of_find_none (findUserDate_eq_none_of_count_zero hnone)]
    rfl

/-- Witness for C2 (amended): both branches at concrete stores — the
conflicting request of user 1 against user 2's (5, 12) row is rejected;
the same request on an empty store inserts user 1's row. -/
theorem cross_user_conflict_checked_witness :
    resolve ⟨[⟨0, 2, "Bob", 5, 12, 50⟩], 1⟩ ⟨1, false⟩ ⟨"Ana", some 5, some 12⟩ 100 =
      (⟨[⟨0, 2, "Bob", 5, 12, 50⟩], 1⟩, .error (.slotTaken 12 5)) ∧
    resolve ⟨[], 0⟩ ⟨1, false⟩ ⟨"Ana", some 5, some 12⟩ 100 =
      (⟨[⟨0, 1, "Ana", 5, 12, 100⟩], 1⟩, .ok ⟨0, 1, "Ana", 5, 12, 100⟩) :=
  ⟨(cross_user_conflict_checked ⟨[⟨0, 2, "Bob", 5, 12, 50⟩], 1⟩ ⟨1, false⟩ 5 12
      "Ana" 100 rfl (by omega) (by omega)).1 rfl,
   (cross_user_conflict_checked ⟨[], 0⟩ ⟨1, false⟩ 5 12
      "Ana" 100 rfl (by omega) (by omega)).2 rfl⟩

/-- C1 counterexample: after user 1's request (date 5, slot 12)
succeeds, the identical second request does not succeed — it is
rejected by the (date, slot) conflict check, which also matches the
user's own row — contradicting the claimed idempotence. -/
theorem repeat_identical_request_cex :
    resolve ⟨[], 0⟩ ⟨1, false⟩ ⟨"Ana", some 5, some 12⟩ 100 =
      (⟨[⟨0, 1, "Ana", 5, 12, 100⟩], 1⟩, .ok ⟨0, 1, "Ana", 5, 12, 100⟩) ∧
    resolve ⟨[⟨0, 1, "Ana", 5, 12, 100⟩], 1⟩ ⟨1, false⟩ ⟨"Ana", some 5, some 12⟩ 101 =
      (⟨[⟨0, 1, "Ana", 5, 12, 100⟩], 1⟩, .error (.slotTaken 12 5)) :=
  ⟨rfl, rfl⟩

/-- C1 (amended): after `resolve(U, D, S1, N1)` succeeds on a
well-formed store holding at most one row for (U, D), a second call
`resolve(U, D, S2, N2)` does not always succeed: with S2 = S1 it fails
with `slotTaken` (the user's own row now occupies (D, S1)); for an
in-range S2 it succeeds exactly when (D, S2) is free — it fails with
`slotTaken` whenever any booking occupies (D, S2), and when (D, S2) is
free it succeeds and leaves exactly one Booking for (U, D), with fields
updated to (S2, N2). -/
theorem booking_resolver_upsert_behavior
    (db db1 : DB) (u : User) (d : Nat) (s1 s2 : Int) (n1 n2 : String)
    (now now' : Nat) (b1 : Booking)
    (hWF : WF db) (hcount : countForUserDate db u.id d ≤ 1)
    (h1 : resolve db u ⟨n1, some d, some s1⟩ now = (db1, .ok b1)) :
    (resolve db1 u ⟨n2, some d, some s1⟩ now' = (db1, .error (.slotTaken s1 d))) ∧
    (10 ≤ s2 → s2 ≤ 20 → slotTakenOn db1 d s2 = true →
      resolve db1 u ⟨n2, some d, some s2⟩ now' = (db1, .error (.slotTaken s2 d))) ∧
    (10 ≤ s2 → s2 ≤ 20 → slotTakenOn db1 d s2 = false →
      ∃ db2 b2, resolve db1 u ⟨n2, some d, some s2⟩ now' = (db2, .ok b2) ∧
        b2.userId = u.id ∧ b2.reservation_date = d ∧
        b2.reservation_slot = s2 ∧ b2.first_name = n2 ∧
        countForUserDate db2 u.id d = 1 ∧
        ∀ c ∈ db2.bookings, bookingKey u.id d c = true → c = b2) := by
  obtain ⟨hfree, hmem, huid, hname, hdate, hslot, hrange⟩ := resolve_ok_facts h1
  obtain ⟨hc1, hWF1⟩ := resolve_ok_count hWF hcount h1
  refine ⟨?_, ?_, ?_⟩
  · have hr := hrange s1 rfl
    have htaken : slotTakenOn db1 d s1 = true :=
      slotTakenOn_iff.mpr ⟨b1, hmem, hdate, hslot⟩
    exact resolve_of_validate_error
      (serializerValidate_slotTaken db1 n2 d (some s1)
        (fun v hv => by cases hv; exact hr) htaken)
  · intro hlo hhi htaken2
    exact resolve_of_validate_error
      (serializerValidate_slotTaken db1 n2 d (some s2)
        (fun v hv => by cases hv; exact ⟨hlo, hhi⟩) htaken2)
  · intro hlo hhi hfree2
    have hv := serializerValidate_ok_intro db1 n2 d (some s2)
      (fun v hv => by cases hv; exact ⟨hlo, hhi⟩) hfree2
    have h2 : resolve db1 u ⟨n2, some d, some s2⟩ now' =
        ((perform_create db1 u ⟨n2, d, s2⟩ now').1,
         .ok (perform_create db1 u ⟨n2, d, s2⟩ now').2) :=
      resolve_of_validate_ok hv
    obtain ⟨hfree2', hmem2, huid2, hname2, hdate2, hslot2, _⟩ := resolve_ok_facts h2
    obtain ⟨hc2, hWF2⟩ := resolve_ok_count hWF1 (by omega) h2
    refine ⟨(perform_create db1 u ⟨n2, d, s2⟩ now').1,
      (perform_create db1 u ⟨n2, d, s2⟩ now').2,
      h2, huid2, hdate2, hslot2, hname2, hc2, ?_⟩
    intro c hc hkey
    have hkey2 : bookingKey u.id d (perform_create db1 u ⟨n2, d, s2⟩ now').2 = true := by
      simp [bookingKey, huid2, hdate2]
    exact filter_length_one_unique hc2 hmem2 hkey2 hc hkey

/-- Witness for C1 (amended): user 1 books (date 5, slot 12) on the
empty store; the identical repeat fails with `slotTaken`, a repeat with
an occupied in-range slot 14 would fail, and a repeat with the free
slot 14 succeeds leaving one row. -/
theorem booking_resolver_upsert_behavior_witness :
    (resolve ⟨[⟨0, 1, "Ana", 5, 12, 100⟩], 1⟩ ⟨1, false⟩ ⟨"Bea", some 5, some 12⟩ 101 =
      (⟨[⟨0, 1, "Ana", 5, 12, 100⟩], 1⟩, .error (.slotTaken 12 5))) ∧
    ((10 : Int) ≤ 14 → (14 : Int) ≤ 20 →
      slotTakenOn ⟨[⟨0, 1, "Ana", 5, 12, 100⟩], 1⟩ 5 14 = true →
      resolve ⟨[⟨0, 1, "Ana", 5, 12, 100⟩], 1⟩ ⟨1, false⟩ ⟨"Bea", some 5, some 14⟩ 101 =
        (⟨[⟨0, 1, "Ana", 5, 12, 100⟩], 1⟩, .error (.slotTaken 14 5))) ∧
    ((10 : Int) ≤ 14 → (14 : Int) ≤ 20 →
      slotTakenOn ⟨[⟨0, 1, "Ana", 5, 12, 100⟩], 1⟩ 5 14 = false →
      ∃ db2 b2,
        resolve ⟨[⟨0, 1, "Ana", 5, 12, 100⟩], 1⟩ ⟨1, false⟩ ⟨"Bea", some 5, some 14⟩ 101 =
          (db2, .ok b2) ∧
        b2.userId = 1 ∧ b2.reservation_date = 5 ∧
        b2.reservation_slot = 14 ∧ b2.first_name = "Bea" ∧
        countForUserDate db2 1 5 = 1 ∧
        ∀ c ∈ db2.bookings, bookingKey 1 5 c = true → c = b2) :=
  booking_resolver_upsert_behavior ⟨[], 0⟩ ⟨[⟨0, 1, "Ana", 5, 12, 100⟩], 1⟩
    ⟨1, false⟩ 5 12 14 "Ana" "Bea" 100 101 ⟨0, 1, "Ana", 5, 12, 100⟩
    (by refine ⟨?_, ?_⟩ <;> intro x hx <;> simp at hx)
    (by decide) rfl
